import Mathlib

set_option maxRecDepth 100000

/-!
Verification of the two core components of the omani-therapist-agent
repository against its specification:

* `VoiceActivityDetector` (src/api/voice_activity_detector.py) — the
  turn-taking state machine, embedded as a pure state-transition system.
* `OmaniTherapistAI._add_natural_pauses` (src/api/omani_therapist_ai.py)
  — the emotion-marker / pause post-processing pipeline, embedded as a
  composition of character-list rewriting passes, one per `re.sub` call
  of the source, each implementing the exact matching semantics of its
  (concrete, backtracking-free) pattern.

Python floats that hold wall-clock times are modelled as rationals;
strings are modelled as `String` / `List Char`.
-/

namespace OmaniTherapist

/-! ## Character-level helpers shared by the rewriting passes -/

/-- Python whitespace class over the characters that can occur here
(the ASCII part of `\s`). -/
def pyIsSpace (c : Char) : Bool :=
  c == ' ' || c == '\t' || c == '\n' || c == '\r' || c.toNat == 11 || c.toNat == 12

/-- Word characters for the `\b` boundary of the Python `re` module:
ASCII alphanumerics, underscore, and the Arabic letter block
(U+0621–U+064A) used by the source's Arabic patterns. -/
def isWordChar (c : Char) : Bool :=
  c.isAlphanum || c == '_' || (1569 ≤ c.toNat && c.toNat ≤ 1610)

/-- Is the head of the remaining text a word character? (End of text
counts as a boundary.) -/
def headIsWord : List Char → Bool
  | [] => false
  | c :: _ => isWordChar c

/-- Is the previously scanned character (if any) a word character? -/
def optIsWord : Option Char → Bool
  | none => false
  | some c => isWordChar c

/-- Literal match of `pat` at the head of the text; `ci` selects the
case-insensitive mode of `re.IGNORECASE` (ASCII case folding). -/
def matchLit (ci : Bool) : List Char → List Char → Bool
  | [], _ => true
  | _ :: _, [] => false
  | p :: ps, c :: cs =>
    (if ci then p.toLower == c.toLower else p == c) && matchLit ci ps cs

theorem matchLit_length {ci : Bool} : ∀ {p l : List Char},
    matchLit ci p l = true → p.length ≤ l.length := by
  intro p
  induction p with
  | nil => intro l _; exact Nat.zero_le _
  | cons x xs ih =>
    intro l h
    cases l with
    | nil => simp [matchLit] at h
    | cons c cs =>
      simp only [matchLit, Bool.and_eq_true] at h
      simpa using Nat.succ_le_succ (ih h.2)

/-- Number of leading characters satisfying `p`. -/
def countWhile (p : Char → Bool) : List Char → Nat
  | [] => 0
  | c :: cs => if p c then countWhile p cs + 1 else 0

theorem countWhile_le (p : Char → Bool) : ∀ l : List Char, countWhile p l ≤ l.length
  | [] => Nat.le_refl _
  | c :: cs => by
    simp only [countWhile]
    split
    · exact Nat.succ_le_succ (countWhile_le p cs)
    · exact Nat.zero_le _

/-- Global, leftmost, non-overlapping substitution of the literal
pattern `pat` by `rep`, the semantics of `re.sub` on an escape-free
pattern.  The `skip` counter consumes the remainder of a matched
region one character at a time, keeping the recursion structural. -/
def subLitGo (ci : Bool) (pat rep : List Char) : Nat → List Char → List Char
  | _, [] => []
  | skip + 1, _ :: cs => subLitGo ci pat rep skip cs
  | 0, c :: cs =>
    if pat.length != 0 && matchLit ci pat (c :: cs) then
      rep ++ subLitGo ci pat rep (pat.length - 1) cs
    else
      c :: subLitGo ci pat rep 0 cs

def subLit (ci : Bool) (pat rep l : List Char) : List Char :=
  subLitGo ci pat rep 0 l

/-- Substitution of a run of at least `minRun` copies of `ch` by `rep`
(the semantics of `re.sub` on a pattern of shape `c{3,}`). -/
def subRunGo (ch : Char) (minRun : Nat) (rep : List Char) : Nat → List Char → List Char
  | _, [] => []
  | skip + 1, _ :: cs => subRunGo ch minRun rep skip cs
  | 0, c :: cs =>
    if c == ch then
      let n := countWhile (fun d => d == ch) cs + 1
      if minRun ≤ n then rep ++ subRunGo ch minRun rep (n - 1) cs
      else c :: subRunGo ch minRun rep 0 cs
    else c :: subRunGo ch minRun rep 0 cs

def subRun (ch : Char) (minRun : Nat) (rep l : List Char) : List Char :=
  subRunGo ch minRun rep 0 l

/-- Substitution of `\b w \b` by `rep` for a fixed word `w` that starts
and ends with word characters (all words used by the source do), so the
boundary reduces to "neighbouring text characters are not word
characters".  Scanning carries the previous character of the original
text, as `re.sub` does. -/
def subWordGo (ci : Bool) (w rep : List Char) : Nat → Option Char → List Char → List Char
  | _, _, [] => []
  | skip + 1, _, c :: cs => subWordGo ci w rep skip (some c) cs
  | 0, prev, c :: cs =>
    if w.length != 0 && !optIsWord prev && matchLit ci w (c :: cs)
        && !headIsWord (cs.drop (w.length - 1)) then
      rep ++ subWordGo ci w rep (w.length - 1) (some c) cs
    else
      c :: subWordGo ci w rep 0 (some c) cs

def subWord (ci : Bool) (w rep : List Char) (l : List Char) : List Char :=
  subWordGo ci w rep 0 none l

/-- Substitution for `\bah+\b` (case-insensitive): maximal run of `h`
after the `a`; backtracking cannot produce further matches because any
shorter run is followed by a word character. -/
def subAhGo (rep : List Char) : Nat → Option Char → List Char → List Char
  | _, _, [] => []
  | skip + 1, _, c :: cs => subAhGo rep skip (some c) cs
  | 0, prev, c :: cs =>
    if !optIsWord prev && c.toLower == 'a' then
      let hn := countWhile (fun d => d.toLower == 'h') cs
      if 1 ≤ hn && !headIsWord (cs.drop hn) then
        rep ++ subAhGo rep hn (some c) cs
      else c :: subAhGo rep 0 (some c) cs
    else c :: subAhGo rep 0 (some c) cs

def subAh (rep l : List Char) : List Char :=
  subAhGo rep 0 none l

/-- Substitution for `\buh+m+\b` (case-insensitive), by the same
maximal-run argument. -/
def subUhmGo (rep : List Char) : Nat → Option Char → List Char → List Char
  | _, _, [] => []
  | skip + 1, _, c :: cs => subUhmGo rep skip (some c) cs
  | 0, prev, c :: cs =>
    if !optIsWord prev && c.toLower == 'u' then
      let hn := countWhile (fun d => d.toLower == 'h') cs
      let mn := countWhile (fun d => d.toLower == 'm') (cs.drop hn)
      if 1 ≤ hn && 1 ≤ mn && !headIsWord ((cs.drop hn).drop mn) then
        rep ++ subUhmGo rep (hn + mn) (some c) cs
      else c :: subUhmGo rep 0 (some c) cs
    else c :: subUhmGo rep 0 (some c) cs

def subUhm (rep l : List Char) : List Char :=
  subUhmGo rep 0 none l

/-- Substitution for `([.!?])\s+` / `(,)\s+` by `\1 tag " "`: the
punctuation character is kept, the whitespace run is replaced by the
break tag and a single space. -/
def subPunctGo (puncts tag : List Char) : Nat → List Char → List Char
  | _, [] => []
  | skip + 1, _ :: cs => subPunctGo puncts tag skip cs
  | 0, c :: cs =>
    if puncts.contains c then
      let sn := countWhile pyIsSpace cs
      if 1 ≤ sn then c :: (tag ++ ' ' :: subPunctGo puncts tag sn cs)
      else c :: subPunctGo puncts tag 0 cs
    else c :: subPunctGo puncts tag 0 cs

def subPunct (puncts tag l : List Char) : List Char :=
  subPunctGo puncts tag 0 l

/-- Split the text at the first occurrence of `ch`: returns the part
before it and the part after it. -/
def breakUntil (ch : Char) : List Char → Option (List Char × List Char)
  | [] => none
  | c :: cs =>
    if c == ch then some ([], cs)
    else
      match breakUntil ch cs with
      | none => none
      | some (a, b) => some (c :: a, b)

theorem breakUntil_some_length {ch : Char} : ∀ {l : List Char} {a b : List Char},
    breakUntil ch l = some (a, b) → b.length < l.length := by
  intro l
  induction l with
  | nil => intro a b h; simp [breakUntil] at h
  | cons c cs ih =>
    intro a b h
    simp only [breakUntil] at h
    split at h
    · cases h; simp
    · cases hrec : breakUntil ch cs with
      | none => rw [hrec] at h; cases h
      | some p =>
        rw [hrec] at h
        cases p with
        | mk a' b' =>
          cases h
          exact Nat.lt_trans (ih hrec) (Nat.lt_succ_self _)

theorem breakUntil_none {ch : Char} : ∀ {l : List Char},
    breakUntil ch l = none → ch ∉ l := by
  intro l
  induction l with
  | nil => intro _; simp
  | cons c cs ih =>
    intro h
    simp only [breakUntil] at h
    split at h
    · cases h
    · rename_i hne
      cases hrec : breakUntil ch cs with
      | none =>
        simp only [List.mem_cons]
        rintro (rfl | hm)
        · simp at hne
        · exact ih hrec hm
      | some p =>
        rw [hrec] at h
        cases p with
        | mk a b => cases h

theorem breakUntil_decomp {ch : Char} : ∀ {l a b : List Char},
    breakUntil ch l = some (a, b) → l = a ++ ch :: b := by
  intro l
  induction l with
  | nil => intro a b h; simp [breakUntil] at h
  | cons c cs ih =>
    intro a b h
    simp only [breakUntil] at h
    split at h
    · rename_i he
      cases h
      simp only [List.nil_append]
      have : c = ch := by simpa using he
      rw [this]
    · cases hrec : breakUntil ch cs with
      | none => rw [hrec] at h; cases h
      | some p =>
        rw [hrec] at h
        cases p with
        | mk a' b' =>
          cases h
          simpa using ih hrec

/-- Does the text contain the literal `w` anywhere? -/
def containsLit (ci : Bool) (w : List Char) : List Char → Bool
  | [] => matchLit ci w []
  | c :: cs => matchLit ci w (c :: cs) || containsLit ci w cs

/-- Substitution for `\([^)]*word[^)]*\)` by `rep`: a parenthesised
group (whose body cannot contain a closing parenthesis) containing the
word, case-insensitively. -/
def subParenWordGo (w rep : List Char) : Nat → List Char → List Char
  | _, [] => []
  | skip + 1, _ :: cs => subParenWordGo w rep skip cs
  | 0, c :: cs =>
    if c == '(' then
      match breakUntil ')' cs with
      | some (content, rest) =>
        if containsLit true w content then
          rep ++ subParenWordGo w rep (cs.length - rest.length) cs
        else c :: subParenWordGo w rep 0 cs
      | none => c :: subParenWordGo w rep 0 cs
    else c :: subParenWordGo w rep 0 cs

def subParenWord (w rep l : List Char) : List Char :=
  subParenWordGo w rep 0 l

/-- Removal of `\*[^*]*\*` (any remaining asterisk-delimited marker). -/
def removeStarsGo : Nat → List Char → List Char
  | _, [] => []
  | skip + 1, _ :: cs => removeStarsGo skip cs
  | 0, c :: cs =>
    if c == '*' then
      match breakUntil '*' cs with
      | some (_, rest) => removeStarsGo (cs.length - rest.length) cs
      | none => c :: removeStarsGo 0 cs
    else c :: removeStarsGo 0 cs

def removeStars (l : List Char) : List Char :=
  removeStarsGo 0 l

/-- Opening literal of a break tag, `<break time="`. -/
def breakOpenChars : List Char := "<break time=\"".toList

/-- Match a literal at the head and return the remainder. -/
def dropLit (pat l : List Char) : Option (List Char) :=
  if matchLit false pat l then some (l.drop pat.length) else none

theorem dropLit_length {pat l r : List Char} (hne : pat ≠ [])
    (h : dropLit pat l = some r) : r.length < l.length := by
  simp only [dropLit] at h
  split at h
  · rename_i hm
    cases h
    have hle := matchLit_length hm
    have hpos : 0 < pat.length := List.length_pos.mpr hne
    simp only [List.length_drop]
    omega
  · cases h

/-- Parse one break tag `<break time="[^"]*"/>` at the head of the
text, returning the remainder. -/
def parseBreakTag (l : List Char) : Option (List Char) :=
  match dropLit breakOpenChars l with
  | none => none
  | some r1 =>
    match dropLit "\"/>".toList (r1.dropWhile (fun c => !(c == '"'))) with
    | none => none
    | some r3 => some r3

theorem parseBreakTag_length {l r : List Char}
    (h : parseBreakTag l = some r) : r.length < l.length := by
  simp only [parseBreakTag] at h
  split at h
  · cases h
  · rename_i r1 h1
    split at h
    · cases h
    · rename_i r3 h2
      cases h
      have hl1 : r1.length < l.length := dropLit_length (by decide) h1
      have hl2 : r.length < (r1.dropWhile (fun c => !(c == '"'))).length :=
        dropLit_length (by decide) h2
      have hl3 : (r1.dropWhile (fun c => !(c == '"'))).length ≤ r1.length :=
        (List.dropWhile_suffix _).sublist.length_le
      omega

/-- Parse a maximal sequence of groups `(<break time="..."/>\s*)`,
returning the group count and the remainder.  Fuelled by the text
length: `parseBreakTag` consumes at least one character per group
(`parseBreakTag_length`), so the fuel never runs out on the wrapper
call below. -/
def parseBreakGroupsF : Nat → List Char → Nat × List Char
  | 0, l => (0, l)
  | fuel + 1, l =>
    match parseBreakTag l with
    | none => (0, l)
    | some r =>
      let out := parseBreakGroupsF fuel (r.dropWhile pyIsSpace)
      (out.1 + 1, out.2)

def parseBreakGroups (l : List Char) : Nat × List Char :=
  parseBreakGroupsF l.length l

/-- Collapse of `(<break time="[^"]*"/>\s*){2,}` into the single
600ms break `rep`. -/
def collapseBreaksGo (rep : List Char) : Nat → List Char → List Char
  | _, [] => []
  | skip + 1, _ :: cs => collapseBreaksGo rep skip cs
  | 0, c :: cs =>
    let g := parseBreakGroups (c :: cs)
    if 2 ≤ g.1 then rep ++ collapseBreaksGo rep (cs.length - g.2.length) cs
    else c :: collapseBreaksGo rep 0 cs

def collapseBreaks (rep l : List Char) : List Char :=
  collapseBreaksGo rep 0 l

/-- Normalisation of `\s+` to a single space. -/
def wsNormGo : Nat → List Char → List Char
  | _, [] => []
  | skip + 1, _ :: cs => wsNormGo skip cs
  | 0, c :: cs =>
    if pyIsSpace c then ' ' :: wsNormGo (countWhile pyIsSpace cs) cs
    else c :: wsNormGo 0 cs

def wsNorm (l : List Char) : List Char :=
  wsNormGo 0 l

/-- Python `str.strip` on the whitespace in use. -/
def stripEnds (l : List Char) : List Char :=
  ((l.dropWhile pyIsSpace).reverse.dropWhile pyIsSpace).reverse

/-! ## The `_add_natural_pauses` pipeline -/

/-- A break tag with the given duration in milliseconds. -/
def brk (n : Nat) : String := "<break time=\"" ++ toString n ++ "ms\"/>"

/-- STAGE 1 substitution table `emotion_patterns` of
`_add_natural_pauses`, in source order.  Keys are the literal texts the
source's regex patterns match (the patterns only use `\*` escapes; the
`*tired sigh*` entry's pattern carries a trailing `/`). -/
def emotionPatterns : List (String × String) :=
  [ ("*soft sigh*", brk 500)
  , ("*gentle sigh*", brk 450)
  , ("*deep sigh*", brk 600)
  , ("*relieved sigh*", brk 400)
  , ("*tired sigh*/", brk 550)
  , ("*sad sigh*", brk 650)
  , ("*thoughtful sigh*", brk 500)
  , ("*proud sigh*", brk 400)
  , ("*soft pause*", brk 400)
  , ("*gentle pause*", brk 350)
  , ("*thoughtful pause*", brk 500)
  , ("*encouraging pause*", brk 300)
  , ("*reassuring pause*", brk 350)
  , ("*contemplative pause*", brk 550)
  , ("*excited pause*", brk 200)
  , ("*calming pause*", brk 450)
  , ("*تنهد خفيف*", brk 500)
  , ("*تنهد عميق*", brk 600)
  , ("*تنهد حزين*", brk 650)
  , ("*تنهد مطمئن*", brk 400)
  , ("*وقفة خفيفة*", brk 350)
  , ("*وقفة مطمئنة*", brk 350)
  , ("*وقفة متأملة*", brk 500)
  , ("*وقفة مشجعة*", brk 300)
  , ("*وقفة فرحة*", brk 250)
  , ("*وقفة هادئة*", brk 450)
  , ("*deep breath*", brk 700)
  , ("*breathe*", brk 600)
  , ("*inhale*", brk 500)
  , ("*exhale*", brk 500)
  , ("*تنفس عميق*", brk 700)
  , ("*شهيق*", brk 500)
  , ("*زفير*", brk 500)
  , ("*whispered*", "")
  , ("*softly*", "")
  , ("*gently*", "")
  , ("*warmly*", "")
  , ("*quietly*", "")
  , ("*بهمس*", "")
  , ("*بلطف*", "")
  , ("*بحنان*", "")
  ]

/-- Stage 1: apply the emotion-marker table in order, each entry a
global case-insensitive literal substitution. -/
def stage1 (l : List Char) : List Char :=
  emotionPatterns.foldl (fun t pr => subLit true pr.1.toList pr.2.toList t) l

/-- Stage 2: ellipsis/underscore runs, simple sigh markers, and
hesitation-word pacing. -/
def stage2 (l : List Char) : List Char :=
  let t := subRun '.' 3 (brk 800).toList l
  let t := subRun '_' 3 (brk 600).toList t
  let t := subLit false "<sigh>".toList (brk 400).toList t
  let t := subLit false "*sigh*".toList (brk 400).toList t
  let t := subLit false "(sigh)".toList (brk 400).toList t
  let t := subUhm ((brk 300) ++ "um" ++ (brk 200)).toList t
  let t := subAh ((brk 250) ++ "ah" ++ (brk 150)).toList t
  let t := subWord true "well".toList ("well" ++ brk 200).toList t
  let t := subWord true "you know".toList ("you know" ++ brk 150).toList t
  let t := subWord false "يعني".toList ("يعني" ++ brk 200).toList t
  let t := subWord false "أه".toList ("أه" ++ brk 150).toList t
  let t := subWord false "إم".toList ("إم" ++ brk 200).toList t
  t

/-- Stage 3: emotion-specific pacing of sentence punctuation and
commas. -/
def stage3 (emotion : String) (l : List Char) : List Char :=
  if emotion = "excited" then
    subPunct [','] (brk 100).toList (subPunct ['.', '!', '?'] (brk 150).toList l)
  else if emotion = "calm" ∨ emotion = "sad" then
    subPunct [','] (brk 250).toList (subPunct ['.', '!', '?'] (brk 400).toList l)
  else
    subPunct [','] (brk 150).toList (subPunct ['.', '!', '?'] (brk 300).toList l)

/-- Stage 4: catch-all removal of leftover asterisk markers,
parenthesised pause/sigh normalisation, collapse of consecutive breaks,
and whitespace normalisation. -/
def stage4 (l : List Char) : List Char :=
  let t := removeStars l
  let t := subParenWord "pause".toList (brk 300).toList t
  let t := subParenWord "sigh".toList (brk 400).toList t
  let t := collapseBreaks (brk 600).toList t
  stripEnds (wsNorm t)

/-- The `_add_natural_pauses` pipeline on character lists. -/
def addNaturalPausesL (l : List Char) (emotion : String) : List Char :=
  stage4 (stage3 emotion (stage2 (stage1 l)))

/-- `OmaniTherapistAI._add_natural_pauses` of
src/api/omani_therapist_ai.py. -/
def addNaturalPauses (text emotion : String) : String :=
  (addNaturalPausesL text.toList emotion).asString

/-! ## VoiceActivityDetector

Shallow embedding of `src/api/voice_activity_detector.py` as a pure
state-transition system.  Wall-clock times (Python floats from
`time.time()`) are rationals; the asyncio silence timer is modelled by
the flag `silence_timer_armed` (a pending, not-yet-cancelled
`_silence_timeout_handler` task), and its expiry by the explicit
transition `silenceTimeoutFires`.  The registered callback is modelled
by the flag `has_callback` plus, per completion, a boolean `cbRaises`
saying whether the call (or the awaited coroutine) raises; a completion
returns the argument the callback was invoked with, if any. -/

/-- One recognition event (`SpeechSegment` dataclass). -/
structure SpeechSegment where
  text : String
  start_time : ℚ
  end_time : ℚ
  confidence : ℚ
  is_final : Bool
deriving DecidableEq, Repr

/-- A Python value assignable to a `VADConfig` attribute: the source
only ever stores numbers (floats) and booleans there. -/
inductive KwVal where
  | num (q : ℚ)
  | bool (b : Bool)
deriving DecidableEq, Repr

/-- Numeric coercion as Python applies it in comparisons
(`True == 1`, `False == 0`). -/
def KwVal.toRat : KwVal → ℚ
  | .num q => q
  | .bool b => if b then 1 else 0

/-- `VADConfig` dataclass with its source defaults. -/
structure VADConfig where
  silence_timeout : KwVal := .num (5/2)
  min_speech_duration : KwVal := .num (1/2)
  max_turn_duration : KwVal := .num 60
  word_pause_threshold : KwVal := .num 1
  debug_logging : KwVal := .bool true
deriving DecidableEq, Repr

/-- The mutable state of a `VoiceActivityDetector` instance. -/
structure VoiceActivityDetector where
  config : VADConfig
  speech_segments : List SpeechSegment
  last_speech_time : Option ℚ
  turn_start_time : Option ℚ
  current_turn_text : String
  silence_timer_armed : Bool
  is_processing : Bool
  has_callback : Bool
  total_turns : Nat
  total_speech_duration : ℚ
  average_turn_length : ℚ
deriving DecidableEq, Repr

/-- `VoiceActivityDetector.__init__`. -/
def initVAD (config : VADConfig) : VoiceActivityDetector :=
  { config := config,
    speech_segments := [],
    last_speech_time := none,
    turn_start_time := none,
    current_turn_text := "",
    silence_timer_armed := false,
    is_processing := false,
    has_callback := false,
    total_turns := 0,
    total_speech_duration := 0,
    average_turn_length := 0 }

/-- `set_turn_complete_callback`. -/
def setTurnCompleteCallback (s : VoiceActivityDetector) : VoiceActivityDetector :=
  { s with has_callback := true }

/-- Python truthiness of an optional float (`None` and `0.0` are
falsy). -/
def pyTruthy : Option ℚ → Bool
  | none => false
  | some t => t != 0

/-- `add_speech_segment(text, is_final, confidence)` at wall-clock time
`now`. -/
def addSpeechSegment (s : VoiceActivityDetector) (text : String) (isFinal : Bool)
    (confidence now : ℚ) : VoiceActivityDetector :=
  let s1 := if s.turn_start_time.isNone && text.trim != "" then
      { s with turn_start_time := some now }
    else s
  let seg : SpeechSegment :=
    { text := text, start_time := now, end_time := now
    , confidence := confidence, is_final := isFinal }
  if isFinal then
    if text.trim != "" then
      { s1 with
        current_turn_text :=
          if s1.current_turn_text != "" then s1.current_turn_text ++ " " ++ text.trim
          else text.trim
      , speech_segments := s1.speech_segments ++ [seg]
      , last_speech_time := some now
      , silence_timer_armed := true }
    else s1
  else s1

/-- `_reset_turn_state`. -/
def resetTurnState (s : VoiceActivityDetector) : VoiceActivityDetector :=
  { s with
    speech_segments := [],
    current_turn_text := "",
    turn_start_time := none,
    last_speech_time := none,
    silence_timer_armed := false }

/-- `_should_process_turn`, evaluated at wall-clock time `now`.  The
source's max-duration branch returns `True`, as does the fall-through
after it. -/
def shouldProcessTurn (s : VoiceActivityDetector) (now : ℚ) : Bool :=
  if s.current_turn_text.trim = "" then false
  else if s.current_turn_text.trim.length < 3 then false
  else if pyTruthy s.turn_start_time then
    if now - (s.turn_start_time.getD 0) > s.config.max_turn_duration.toRat then true
    else true
  else true

/-- Result of a (possibly) completed turn: the new state, the argument
the callback was invoked with (if it was invoked), and whether the
exception of a raising callback propagated. -/
structure TurnOutcome where
  state : VoiceActivityDetector
  callbackArg : Option (String × List SpeechSegment)
  raised : Bool
deriving DecidableEq, Repr

/-- `_complete_turn`.  Statistics are updated before the callback runs;
the `finally` block restores only `is_processing`, so a raising
callback skips `_reset_turn_state`. -/
def completeTurn (s : VoiceActivityDetector) (cbRaises : Bool) : TurnOutcome :=
  if s.is_processing then ⟨s, none, false⟩
  else
    let s1 := { s with is_processing := true }
    let dur : ℚ :=
      if pyTruthy s1.turn_start_time && pyTruthy s1.last_speech_time then
        s1.last_speech_time.getD 0 - s1.turn_start_time.getD 0
      else 0
    let s2 := { s1 with
      total_turns := s1.total_turns + 1
    , total_speech_duration := s1.total_speech_duration + dur }
    let s3 := { s2 with
      average_turn_length := s2.total_speech_duration / (s2.total_turns : ℚ) }
    if s3.has_callback && s3.current_turn_text.trim != "" then
      if cbRaises then
        ⟨{ s3 with is_processing := false }
        , some (s3.current_turn_text, s3.speech_segments), true⟩
      else
        ⟨{ resetTurnState s3 with is_processing := false }
        , some (s3.current_turn_text, s3.speech_segments), false⟩
    else
      ⟨{ resetTurnState s3 with is_processing := false }, none, false⟩

/-- Expiry of the silence timer (`_silence_timeout_handler` past its
sleep, i.e. not cancelled): the sleeping task is done, so the timer is
no longer pending. -/
def silenceTimeoutFires (s : VoiceActivityDetector) (now : ℚ) (cbRaises : Bool) : TurnOutcome :=
  let s0 := { s with silence_timer_armed := false }
  if shouldProcessTurn s0 now then completeTurn s0 cbRaises
  else ⟨resetTurnState s0, none, false⟩

/-- `force_complete_turn`. -/
def forceCompleteTurn (s : VoiceActivityDetector) (cbRaises : Bool) : TurnOutcome :=
  if s.current_turn_text.trim != "" then completeTurn s cbRaises
  else ⟨s, none, false⟩

/-- `reset`. -/
def resetVAD (s : VoiceActivityDetector) : VoiceActivityDetector :=
  { resetTurnState s with
    total_turns := 0,
    total_speech_duration := 0,
    average_turn_length := 0 }

/-- `setattr(self.config, key, value)` guarded by `hasattr`, as
`update_config` performs per keyword argument; an unknown key is
logged and ignored. -/
def setConfigAttr (c : VADConfig) (k : String) (v : KwVal) : VADConfig :=
  if k = "silence_timeout" then { c with silence_timeout := v }
  else if k = "min_speech_duration" then { c with min_speech_duration := v }
  else if k = "max_turn_duration" then { c with max_turn_duration := v }
  else if k = "word_pause_threshold" then { c with word_pause_threshold := v }
  else if k = "debug_logging" then { c with debug_logging := v }
  else c

/-- `getattr(config, k)` restricted to the five dataclass fields. -/
def getConfigAttr (c : VADConfig) (k : String) : Option KwVal :=
  if k = "silence_timeout" then some c.silence_timeout
  else if k = "min_speech_duration" then some c.min_speech_duration
  else if k = "max_turn_duration" then some c.max_turn_duration
  else if k = "word_pause_threshold" then some c.word_pause_threshold
  else if k = "debug_logging" then some c.debug_logging
  else none

/-- `hasattr(config, k)`. -/
def isConfigField (k : String) : Bool :=
  k = "silence_timeout" || k = "min_speech_duration" || k = "max_turn_duration"
    || k = "word_pause_threshold" || k = "debug_logging"

/-- `update_config(**kwargs)`: the keyword arguments in order (a Python
`**kwargs` dict has distinct keys). -/
def updateConfig (c : VADConfig) (kwargs : List (String × KwVal)) : VADConfig :=
  kwargs.foldl (fun acc kv => setConfigAttr acc kv.1 kv.2) c

/-- The detector states reachable from a fresh instance through the
public operations named by the specification (segment events, timer
expiry, forced completion, reset, callback registration). -/
inductive Reachable : VoiceActivityDetector → Prop where
  | init (cfg : VADConfig) : Reachable (initVAD cfg)
  | register {s : VoiceActivityDetector} :
      Reachable s → Reachable (setTurnCompleteCallback s)
  | add {s : VoiceActivityDetector} (text : String) (isFinal : Bool) (confidence now : ℚ) :
      Reachable s → Reachable (addSpeechSegment s text isFinal confidence now)
  | timeout {s : VoiceActivityDetector} (now : ℚ) (cbRaises : Bool) :
      Reachable s → s.silence_timer_armed = true →
      Reachable (silenceTimeoutFires s now cbRaises).state
  | force {s : VoiceActivityDetector} (cbRaises : Bool) :
      Reachable s → Reachable (forceCompleteTurn s cbRaises).state
  | reset {s : VoiceActivityDetector} : Reachable s → Reachable (resetVAD s)

end OmaniTherapist

namespace OmaniTherapist

/-! ## Claim theorems -/

/-- C1 (code_bug evaluation): with a registered callback that raises
during `_complete_turn`, the detector's turn state is NOT reset — after
a final segment "hello" at t = 1 and the silence timeout at t = 3.5
with a raising callback, `current_turn_text`, `speech_segments`,
`turn_start_time` and `last_speech_time` all survive; only
`is_processing` is restored (by the `finally` block).  This contradicts
the claim/spec, which requires the full reset to occur regardless. -/
theorem claimC1_raising_callback_skips_reset :
    (silenceTimeoutFires (addSpeechSegment (setTurnCompleteCallback (initVAD {})) "hello" true 1 1) (7/2) true).raised = true
    ∧ (silenceTimeoutFires (addSpeechSegment (setTurnCompleteCallback (initVAD {})) "hello" true 1 1) (7/2) true).state.current_turn_text = "hello"
    ∧ (silenceTimeoutFires (addSpeechSegment (setTurnCompleteCallback (initVAD {})) "hello" true 1 1) (7/2) true).state.speech_segments ≠ []
    ∧ (silenceTimeoutFires (addSpeechSegment (setTurnCompleteCallback (initVAD {})) "hello" true 1 1) (7/2) true).state.turn_start_time = some 1
    ∧ (silenceTimeoutFires (addSpeechSegment (setTurnCompleteCallback (initVAD {})) "hello" true 1 1) (7/2) true).state.last_speech_time = some 1
    ∧ (silenceTimeoutFires (addSpeechSegment (setTurnCompleteCallback (initVAD {})) "hello" true 1 1) (7/2) true).state.is_processing = false :=
  of_decide_eq_true (by with_unfolding_all rfl)

/-- C6: a single final segment "ok" (2 characters) followed by an
uninterrupted silence timeout does not invoke the callback and silently
resets the turn state with statistics unchanged, whereas "oky"
(3 characters) followed by the same timeout does invoke it. -/
theorem claimC6_minimum_content_rejection :
    (silenceTimeoutFires (addSpeechSegment (setTurnCompleteCallback (initVAD {})) "ok" true 1 1) (7/2) false).callbackArg = none
    ∧ (silenceTimeoutFires (addSpeechSegment (setTurnCompleteCallback (initVAD {})) "ok" true 1 1) (7/2) false).state.current_turn_text = ""
    ∧ (silenceTimeoutFires (addSpeechSegment (setTurnCompleteCallback (initVAD {})) "ok" true 1 1) (7/2) false).state.turn_start_time = none
    ∧ (silenceTimeoutFires (addSpeechSegment (setTurnCompleteCallback (initVAD {})) "ok" true 1 1) (7/2) false).state.last_speech_time = none
    ∧ (silenceTimeoutFires (addSpeechSegment (setTurnCompleteCallback (initVAD {})) "ok" true 1 1) (7/2) false).state.speech_segments = []
    ∧ (silenceTimeoutFires (addSpeechSegment (setTurnCompleteCallback (initVAD {})) "ok" true 1 1) (7/2) false).state.total_turns = 0
    ∧ (silenceTimeoutFires (addSpeechSegment (setTurnCompleteCallback (initVAD {})) "ok" true 1 1) (7/2) false).state.total_speech_duration = 0
    ∧ (silenceTimeoutFires (addSpeechSegment (setTurnCompleteCallback (initVAD {})) "ok" true 1 1) (7/2) false).state.average_turn_length = 0
    ∧ (silenceTimeoutFires (addSpeechSegment (setTurnCompleteCallback (initVAD {})) "oky" true 1 1) (7/2) false).callbackArg
        = some ("oky", [{ text := "oky", start_time := 1, end_time := 1, confidence := 1, is_final := true }]) :=
  of_decide_eq_true (by with_unfolding_all rfl)

/-- C7: `_add_natural_pauses("*deep sigh*", "neutral")` and
`_add_natural_pauses("*excited pause*", "neutral")` produce pause
directives with the distinct durations 600ms and 200ms: the marker
table is not collapsed into one generic substitution. -/
theorem claimC7_pause_duration_differentiation :
    addNaturalPauses "*deep sigh*" "neutral" = "<break time=\"600ms\"/>"
    ∧ addNaturalPauses "*excited pause*" "neutral" = "<break time=\"200ms\"/>"
    ∧ addNaturalPauses "*deep sigh*" "neutral" ≠ addNaturalPauses "*excited pause*" "neutral" := by
  decide

/-- C8: `_add_natural_pauses("Hello there.", "neutral")` applied twice
in sequence equals a single application (the sentence-final period is
not followed by whitespace, so the single application is already the
identity here and nothing accumulates). -/
theorem claimC8_idempotent_on_plain_text :
    addNaturalPauses (addNaturalPauses "Hello there." "neutral") "neutral"
      = addNaturalPauses "Hello there." "neutral" := by
  decide

/-- C3 (counterexample): on `"Thank you... *soft sigh* ...I understand"`
with emotion `calm` the output contains exactly one break directive in
total and no `500` duration at all — the 500ms sigh directive and the
800ms ellipsis directives do not survive to the output (they are merged
by the consecutive-break collapse), contradicting the claim that one
directive from the ellipsis and one from the sigh (at 500ms) are both
present. -/
theorem claimC3_cex_directives_merged :
    addNaturalPauses "Thank you... *soft sigh* ...I understand" "calm"
      = "Thank you<break time=\"600ms\"/>I understand"
    ∧ (addNaturalPausesL "Thank you... *soft sigh* ...I understand".toList "calm").count '<' = 1
    ∧ containsLit false "500".toList
        (addNaturalPausesL "Thank you... *soft sigh* ...I understand".toList "calm") = false := by
  decide

/-- C3 (amended): the ellipsis and sigh directives are collapsed by the
consecutive-break rule into a single 600ms directive; the output
contains exactly one pause directive, no literal `*soft sigh*`, and the
words "Thank you" and "I understand" verbatim. -/
theorem claimC3_amended_single_merged_directive :
    addNaturalPauses "Thank you... *soft sigh* ...I understand" "calm"
      = "Thank you<break time=\"600ms\"/>I understand"
    ∧ (addNaturalPausesL "Thank you... *soft sigh* ...I understand".toList "calm").count '<' = 1
    ∧ containsLit false "*soft sigh*".toList
        (addNaturalPausesL "Thank you... *soft sigh* ...I understand".toList "calm") = false
    ∧ containsLit false "Thank you".toList
        (addNaturalPausesL "Thank you... *soft sigh* ...I understand".toList "calm") = true
    ∧ containsLit false "I understand".toList
        (addNaturalPausesL "Thank you... *soft sigh* ...I understand".toList "calm") = true := by
  decide

/-- C2 (counterexample): a turn whose elapsed time since
`turn_start_time` (99 seconds) exceeds `max_turn_duration` (60 seconds)
but whose stripped text "ok" is shorter than 3 characters is NOT
forced to complete: `_should_process_turn` is false, because the
source checks the 3-character minimum before the max-duration branch. -/
theorem claimC2_cex_short_text_not_forced :
    (addSpeechSegment (initVAD {}) "ok" true 1 1).turn_start_time = some 1
    ∧ (addSpeechSegment (initVAD {}) "ok" true 1 1).current_turn_text = "ok"
    ∧ ((100 : ℚ) - 1 > (addSpeechSegment (initVAD {}) "ok" true 1 1).config.max_turn_duration.toRat)
    ∧ shouldProcessTurn (addSpeechSegment (initVAD {}) "ok" true 1 1) 100 = false :=
  of_decide_eq_true (by with_unfolding_all rfl)

/-- C10: `force_complete_turn` bypasses the 3-character minimum: for
every state with `is_processing` false, non-empty stripped
`current_turn_text` (however short) and a registered callback that
returns normally, it invokes the callback with the accumulated text and
segments, increments `total_turns`, and resets the turn state. -/
theorem claimC10_force_complete_bypasses_minimum (s : VoiceActivityDetector)
    (h1 : s.is_processing = false) (h2 : s.current_turn_text.trim ≠ "")
    (h3 : s.has_callback = true) :
    (forceCompleteTurn s false).callbackArg = some (s.current_turn_text, s.speech_segments)
    ∧ (forceCompleteTurn s false).state.total_turns = s.total_turns + 1
    ∧ (forceCompleteTurn s false).state.current_turn_text = ""
    ∧ (forceCompleteTurn s false).state.turn_start_time = none
    ∧ (forceCompleteTurn s false).state.speech_segments = []
    ∧ (forceCompleteTurn s false).state.last_speech_time = none
    ∧ (forceCompleteTurn s false).state.is_processing = false := by
  have h2b : (s.current_turn_text.trim != "") = true := by
    simpa [bne_iff_ne] using h2
  unfold forceCompleteTurn completeTurn resetTurnState
  simp [h1, h2b, h3]

/-- Witness for C10 at the two-character text "ok", which the
silence-timeout path would discard. -/
theorem claimC10_witness :
    (addSpeechSegment (setTurnCompleteCallback (initVAD {})) "ok" true 1 1).is_processing = false
    ∧ (addSpeechSegment (setTurnCompleteCallback (initVAD {})) "ok" true 1 1).current_turn_text.trim ≠ ""
    ∧ (addSpeechSegment (setTurnCompleteCallback (initVAD {})) "ok" true 1 1).has_callback = true
    ∧ ((forceCompleteTurn (addSpeechSegment (setTurnCompleteCallback (initVAD {})) "ok" true 1 1) false).callbackArg
        = some ((addSpeechSegment (setTurnCompleteCallback (initVAD {})) "ok" true 1 1).current_turn_text,
                (addSpeechSegment (setTurnCompleteCallback (initVAD {})) "ok" true 1 1).speech_segments)
      ∧ (forceCompleteTurn (addSpeechSegment (setTurnCompleteCallback (initVAD {})) "ok" true 1 1) false).state.total_turns
        = (addSpeechSegment (setTurnCompleteCallback (initVAD {})) "ok" true 1 1).total_turns + 1
      ∧ (forceCompleteTurn (addSpeechSegment (setTurnCompleteCallback (initVAD {})) "ok" true 1 1) false).state.current_turn_text = ""
      ∧ (forceCompleteTurn (addSpeechSegment (setTurnCompleteCallback (initVAD {})) "ok" true 1 1) false).state.turn_start_time = none
      ∧ (forceCompleteTurn (addSpeechSegment (setTurnCompleteCallback (initVAD {})) "ok" true 1 1) false).state.speech_segments = []
      ∧ (forceCompleteTurn (addSpeechSegment (setTurnCompleteCallback (initVAD {})) "ok" true 1 1) false).state.last_speech_time = none
      ∧ (forceCompleteTurn (addSpeechSegment (setTurnCompleteCallback (initVAD {})) "ok" true 1 1) false).state.is_processing = false) :=
  ⟨of_decide_eq_true (by with_unfolding_all rfl)
  , of_decide_eq_true (by with_unfolding_all rfl)
  , of_decide_eq_true (by with_unfolding_all rfl)
  , claimC10_force_complete_bypasses_minimum
      (addSpeechSegment (setTurnCompleteCallback (initVAD {})) "ok" true 1 1)
      (of_decide_eq_true (by with_unfolding_all rfl))
      (of_decide_eq_true (by with_unfolding_all rfl))
      (of_decide_eq_true (by with_unfolding_all rfl))⟩

/-- C2 (amended): at a silence timeout the completion criterion
`_should_process_turn` holds iff the stripped accumulated text is at
least 3 characters long — the max-duration branch never overrides the
minimum-length check (both of its outcomes are `True`, which the
fall-through returns anyway) — and `add_speech_segment` never completes
a turn by itself (so continuous final segments cannot force a
completion without a silence timeout or an explicit force). -/
theorem claimC2_amended_max_duration_does_not_override :
    (∀ (s : VoiceActivityDetector) (now : ℚ),
      shouldProcessTurn s now = decide (3 ≤ s.current_turn_text.trim.length))
    ∧ (∀ (s : VoiceActivityDetector) (text : String) (isFinal : Bool) (confidence now : ℚ),
      (addSpeechSegment s text isFinal confidence now).total_turns = s.total_turns) := by
  constructor
  · intro s now
    unfold shouldProcessTurn
    split_ifs with h1 h2 h3 h4
    · rw [h1]
      decide
    · symm
      rw [decide_eq_false_iff_not]
      omega
    · symm
      rw [decide_eq_true_eq]
      omega
    · symm
      rw [decide_eq_true_eq]
      omega
    · symm
      rw [decide_eq_true_eq]
      omega
  · intro s text isFinal confidence now
    unfold addSpeechSegment
    split_ifs <;> rfl

set_option maxHeartbeats 1000000 in
theorem getConfigAttr_setConfigAttr (c : VADConfig) (k : String) (v : KwVal) (k' : String) :
    getConfigAttr (setConfigAttr c k v) k' =
      if isConfigField k = true ∧ k' = k then some v else getConfigAttr c k' := by
  by_cases h1 : k = "silence_timeout"
  · subst h1
    unfold setConfigAttr getConfigAttr isConfigField
    split_ifs <;> simp_all
  · by_cases h2 : k = "min_speech_duration"
    · subst h2
      unfold setConfigAttr getConfigAttr isConfigField
      split_ifs <;> simp_all
    · by_cases h3 : k = "max_turn_duration"
      · subst h3
        unfold setConfigAttr getConfigAttr isConfigField
        split_ifs <;> simp_all
      · by_cases h4 : k = "word_pause_threshold"
        · subst h4
          unfold setConfigAttr getConfigAttr isConfigField
          split_ifs <;> simp_all
        · by_cases h5 : k = "debug_logging"
          · subst h5
            unfold setConfigAttr getConfigAttr isConfigField
            split_ifs <;> simp_all
          · have hf : isConfigField k = false := by
              simp [isConfigField, h1, h2, h3, h4, h5]
            have hs : setConfigAttr c k v = c := by
              unfold setConfigAttr
              simp [h1, h2, h3, h4, h5]
            rw [hs, hf]
            simp

theorem setConfigAttr_unknown (c : VADConfig) (k : String) (v : KwVal)
    (h : isConfigField k = false) : setConfigAttr c k v = c := by
  unfold isConfigField at h
  simp only [Bool.or_eq_false_iff, decide_eq_false_iff_not] at h
  obtain ⟨⟨⟨⟨n1, n2⟩, n3⟩, n4⟩, n5⟩ := h
  unfold setConfigAttr
  simp [n1, n2, n3, n4, n5]

theorem updateConfig_cons (c : VADConfig) (kv : String × KwVal) (rest : List (String × KwVal)) :
    updateConfig c (kv :: rest) = updateConfig (setConfigAttr c kv.1 kv.2) rest := rfl

/-- C9: `update_config(**kwargs)` — every keyword naming an existing
`VADConfig` field ends up set to the supplied value, a keyword that
names no field leaves the config entirely unchanged (it only warns),
and fields not named by any keyword keep their previous values. -/
theorem claimC9_update_config_frame :
    ∀ (c : VADConfig) (kwargs : List (String × KwVal)),
      (∀ (k : String) (v : KwVal), isConfigField k = false → setConfigAttr c k v = c)
      ∧ ((kwargs.map Prod.fst).Nodup →
          (∀ (k : String) (v : KwVal), (k, v) ∈ kwargs → isConfigField k = true →
            getConfigAttr (updateConfig c kwargs) k = some v)
          ∧ (∀ k : String, k ∉ kwargs.map Prod.fst →
            getConfigAttr (updateConfig c kwargs) k = getConfigAttr c k)) := by
  intro c kwargs
  refine ⟨fun k v h => setConfigAttr_unknown c k v h, ?_⟩
  induction kwargs generalizing c with
  | nil =>
    intro _
    exact ⟨fun k v h => by simp at h, fun k _ => rfl⟩
  | cons kv rest ih =>
    obtain ⟨k0, v0⟩ := kv
    intro hnd
    rw [List.map_cons] at hnd
    obtain ⟨hnotin, hnd'⟩ := List.nodup_cons.mp hnd
    have IH := ih (setConfigAttr c k0 v0) hnd'
    constructor
    · intro k v hmem hf
      rcases List.mem_cons.mp hmem with heq | hmem'
      · rw [Prod.mk.injEq] at heq
        obtain ⟨hk, hv⟩ := heq
        subst hk
        subst hv
        rw [updateConfig_cons, IH.2 k hnotin, getConfigAttr_setConfigAttr]
        simp [hf]
      · rw [updateConfig_cons]
        exact IH.1 k v hmem' hf
    · intro k hk
      rw [List.map_cons, List.mem_cons] at hk
      push_neg at hk
      obtain ⟨hk1, hk2⟩ := hk
      rw [updateConfig_cons, IH.2 k hk2, getConfigAttr_setConfigAttr]
      simp [hk1]

/-- Witness for C9: updating `silence_timeout` together with an
unknown key `bogus` sets the recognized field, ignores the unknown one
completely, and leaves `max_turn_duration` untouched. -/
theorem claimC9_witness :
    (([("silence_timeout", KwVal.num 3), ("bogus", KwVal.num 1)].map Prod.fst).Nodup
      ∧ getConfigAttr (updateConfig {} [("silence_timeout", KwVal.num 3), ("bogus", KwVal.num 1)]) "silence_timeout"
          = some (KwVal.num 3)
      ∧ getConfigAttr (updateConfig {} [("silence_timeout", KwVal.num 3), ("bogus", KwVal.num 1)]) "max_turn_duration"
          = getConfigAttr {} "max_turn_duration")
    ∧ setConfigAttr {} "bogus" (KwVal.num 1) = {} := by
  have hnd : (([("silence_timeout", KwVal.num 3), ("bogus", KwVal.num 1)] : List (String × KwVal)).map Prod.fst).Nodup := by
    decide
  have h := claimC9_update_config_frame {} [("silence_timeout", KwVal.num 3), ("bogus", KwVal.num 1)]
  refine ⟨⟨hnd, ?_, ?_⟩, ?_⟩
  · exact (h.2 hnd).1 "silence_timeout" (KwVal.num 3) (by simp) (by decide)
  · exact (h.2 hnd).2 "max_turn_duration" (by decide)
  · exact h.1 "bogus" (KwVal.num 1) (by decide)

/-- C4 (counterexample): a non-final (partial) segment with non-empty
text on a fresh detector sets `turn_start_time` while leaving
`current_turn_text` empty — so `turn_start_time = None ↔ nothing
accumulated` fails, and a partial segment does change the turn state
(line 91 of the source runs before the `is_final` check). -/
theorem claimC4_cex_partial_segment_starts_turn :
    (addSpeechSegment (initVAD {}) "hi" false 1 5).turn_start_time = some 5
    ∧ (addSpeechSegment (initVAD {}) "hi" false 1 5).current_turn_text = "" :=
  of_decide_eq_true (by with_unfolding_all rfl)

/-- After `_complete_turn` the accumulated text is either cleared (the
reset ran) or both the text and `turn_start_time` are exactly as
before (guard hit, or a raising callback skipped the reset). -/
theorem completeTurn_text_cases (s : VoiceActivityDetector) (cbRaises : Bool) :
    (completeTurn s cbRaises).state.current_turn_text = ""
    ∨ ((completeTurn s cbRaises).state.current_turn_text = s.current_turn_text
        ∧ (completeTurn s cbRaises).state.turn_start_time = s.turn_start_time) := by
  simp only [completeTurn, resetTurnState]
  split_ifs <;> simp

/-- After `add_speech_segment` either `turn_start_time` is set, or the
event was a no-op on both the accumulated text and `turn_start_time`. -/
theorem addSpeechSegment_text_start (s : VoiceActivityDetector) (text : String)
    (isFinal : Bool) (confidence now : ℚ) :
    (addSpeechSegment s text isFinal confidence now).turn_start_time ≠ none
    ∨ ((addSpeechSegment s text isFinal confidence now).current_turn_text = s.current_turn_text
        ∧ (addSpeechSegment s text isFinal confidence now).turn_start_time = s.turn_start_time) := by
  simp only [addSpeechSegment]
  split_ifs <;> simp_all [Option.isNone_iff_eq_none]

/-- Invariant (one direction of C4, the direction the code satisfies):
in every reachable state, accumulated text implies an active
`turn_start_time`. -/
theorem reachable_text_imp_turn_start {s : VoiceActivityDetector}
    (h : Reachable s) : s.current_turn_text ≠ "" → s.turn_start_time ≠ none := by
  induction h with
  | init cfg => intro h'; exact absurd rfl h'
  | register h ih => exact ih
  | add text isFinal confidence now h ih =>
    rename_i s'
    intro hne
    rcases addSpeechSegment_text_start s' text isFinal confidence now with hl | hr
    · exact hl
    · rw [hr.2]
      rw [hr.1] at hne
      exact ih hne
  | timeout now cbRaises h harm ih =>
    rename_i s'
    intro hne
    simp only [silenceTimeoutFires] at hne ⊢
    split_ifs at hne ⊢ with hsp
    · rcases completeTurn_text_cases { s' with silence_timer_armed := false } cbRaises with hc | hc
      · exact absurd hc hne
      · rw [hc.2]
        rw [hc.1] at hne
        exact ih hne
    · simp [resetTurnState] at hne
  | force cbRaises h ih =>
    rename_i s'
    intro hne
    simp only [forceCompleteTurn] at hne ⊢
    split_ifs at hne ⊢ with htr
    · rcases completeTurn_text_cases s' cbRaises with hc | hc
      · exact absurd hc hne
      · rw [hc.2]
        rw [hc.1] at hne
        exact ih hne
    · exact ih hne
  | reset h ih =>
    intro hne
    simp [resetVAD, resetTurnState] at hne

/-- C4 (amended): in every reachable state, non-empty accumulated text
implies `turn_start_time` is set (the converse fails, see the
counterexample: any first non-empty speech, final or partial, sets
`turn_start_time`); and a non-final segment performs no accumulation
and no timer interaction — it leaves `current_turn_text`,
`speech_segments`, `last_speech_time` and the silence timer unchanged,
at most recording `turn_start_time` when it is the first non-empty
speech. -/
theorem claimC4_amended_turn_start_invariant :
    (∀ s : VoiceActivityDetector, Reachable s →
      s.current_turn_text ≠ "" → s.turn_start_time ≠ none)
    ∧ (∀ (s : VoiceActivityDetector) (text : String) (confidence now : ℚ),
        (addSpeechSegment s text false confidence now).current_turn_text = s.current_turn_text
        ∧ (addSpeechSegment s text false confidence now).speech_segments = s.speech_segments
        ∧ (addSpeechSegment s text false confidence now).last_speech_time = s.last_speech_time
        ∧ (addSpeechSegment s text false confidence now).silence_timer_armed = s.silence_timer_armed
        ∧ ((addSpeechSegment s text false confidence now).turn_start_time = s.turn_start_time
            ∨ (s.turn_start_time = none
                ∧ (addSpeechSegment s text false confidence now).turn_start_time = some now))) := by
  constructor
  · intro s h
    exact reachable_text_imp_turn_start h
  · intro s text confidence now
    simp only [addSpeechSegment, Bool.false_eq_true, if_false]
    split_ifs with hstart
    · simp only [Bool.and_eq_true, Option.isNone_iff_eq_none] at hstart
      exact ⟨rfl, rfl, rfl, rfl, Or.inr ⟨hstart.1, rfl⟩⟩
    · exact ⟨rfl, rfl, rfl, rfl, Or.inl rfl⟩

/-- Witness for C4's amended invariant at the reachable state obtained
by one final segment "hello". -/
theorem claimC4_witness :
    (addSpeechSegment (initVAD {}) "hello" true 1 1).current_turn_text ≠ ""
    ∧ (addSpeechSegment (initVAD {}) "hello" true 1 1).turn_start_time ≠ none :=
  ⟨of_decide_eq_true (by with_unfolding_all rfl)
  , claimC4_amended_turn_start_invariant.1
      (addSpeechSegment (initVAD {}) "hello" true 1 1)
      (Reachable.add "hello" true 1 1 (Reachable.init {}))
      (of_decide_eq_true (by with_unfolding_all rfl))⟩

/-! Helpers for C5: the number of asterisks in the output of the
pipeline is at most one, so no complete asterisk-delimited marker (a
substring of shape starred-text-starred, which needs two asterisks) can
survive.  The count is bounded for the stage-4 catch-all and preserved
or decreased by every later pass. -/

def countStar (l : List Char) : Nat := l.count '*'

theorem countStar_nil : countStar [] = 0 := rfl

theorem countStar_cons (c : Char) (l : List Char) :
    countStar (c :: l) = (if c = '*' then 1 else 0) + countStar l := by
  by_cases h : c = '*' <;> simp [countStar, List.count_cons, h, Nat.add_comm]

theorem countStar_append (a b : List Char) :
    countStar (a ++ b) = countStar a + countStar b := by
  simp [countStar, List.count_append]

theorem countStar_eq_zero {l : List Char} (h : '*' ∉ l) : countStar l = 0 := by
  simp [countStar, List.count_eq_zero]
  intro hm
  exact h hm

theorem removeStarsGo_star_free :
    ∀ (l : List Char) (skip : Nat), countStar l = 0 → countStar (removeStarsGo skip l) = 0
  | [], _ => by simp [removeStarsGo, countStar_nil]
  | c :: cs, skip + 1 => by
    intro h
    rw [countStar_cons] at h
    simp only [removeStarsGo]
    exact removeStarsGo_star_free cs skip (by omega)
  | c :: cs, 0 => by
    intro h
    rw [countStar_cons] at h
    have hcs : countStar cs = 0 := by omega
    have hc : ¬(c = '*') := by
      intro hcc
      rw [if_pos hcc] at h
      omega
    simp only [removeStarsGo]
    rw [if_neg (by simpa using hc)]
    rw [countStar_cons, if_neg hc]
    simpa using removeStarsGo_star_free cs 0 hcs

theorem countStar_removeStarsGo :
    ∀ (l : List Char) (skip : Nat), countStar (removeStarsGo skip l) ≤ 1
  | [], _ => by simp [removeStarsGo, countStar_nil]
  | c :: cs, skip + 1 => by
    simp only [removeStarsGo]
    exact countStar_removeStarsGo cs skip
  | c :: cs, 0 => by
    simp only [removeStarsGo]
    split_ifs with hc
    · rcases hbu : breakUntil '*' cs with _ | ⟨content, rest⟩
      · dsimp only
        have hfree : countStar cs = 0 := countStar_eq_zero (breakUntil_none hbu)
        rw [countStar_cons]
        rw [removeStarsGo_star_free cs 0 hfree]
        split_ifs <;> omega
      · dsimp only
        exact countStar_removeStarsGo cs (cs.length - rest.length)
    · rw [countStar_cons]
      have hc' : ¬(c = '*') := by simpa using hc
      rw [if_neg hc']
      simpa using countStar_removeStarsGo cs 0

theorem countStar_subParenWordGo (w rep : List Char) (hrep : countStar rep = 0) :
    ∀ (l : List Char) (skip : Nat), countStar (subParenWordGo w rep skip l) ≤ countStar l
  | [], _ => by simp [subParenWordGo, countStar_nil]
  | c :: cs, skip + 1 => by
    simp only [subParenWordGo]
    have := countStar_subParenWordGo w rep hrep cs skip
    rw [countStar_cons]
    omega
  | c :: cs, 0 => by
    simp only [subParenWordGo]
    split_ifs with hc
    · rcases hbu : breakUntil ')' cs with _ | ⟨content, rest⟩
      · dsimp only
        have := countStar_subParenWordGo w rep hrep cs 0
        rw [countStar_cons, countStar_cons]
        omega
      · dsimp only
        split_ifs with hw
        · rw [countStar_append, hrep]
          have := countStar_subParenWordGo w rep hrep cs (cs.length - rest.length)
          rw [countStar_cons]
          omega
        · have := countStar_subParenWordGo w rep hrep cs 0
          rw [countStar_cons, countStar_cons]
          omega
    · have := countStar_subParenWordGo w rep hrep cs 0
      rw [countStar_cons, countStar_cons]
      omega

theorem countStar_collapseBreaksGo (rep : List Char) (hrep : countStar rep = 0) :
    ∀ (l : List Char) (skip : Nat), countStar (collapseBreaksGo rep skip l) ≤ countStar l
  | [], _ => by simp [collapseBreaksGo, countStar_nil]
  | c :: cs, skip + 1 => by
    simp only [collapseBreaksGo]
    have := countStar_collapseBreaksGo rep hrep cs skip
    rw [countStar_cons]
    omega
  | c :: cs, 0 => by
    simp only [collapseBreaksGo]
    split_ifs with hg
    · rw [countStar_append, hrep]
      have := countStar_collapseBreaksGo rep hrep cs (cs.length - (parseBreakGroups (c :: cs)).2.length)
      rw [countStar_cons]
      omega
    · have := countStar_collapseBreaksGo rep hrep cs 0
      rw [countStar_cons, countStar_cons]
      omega

theorem countStar_wsNormGo :
    ∀ (l : List Char) (skip : Nat), countStar (wsNormGo skip l) ≤ countStar l
  | [], _ => by simp [wsNorm, wsNormGo, countStar_nil]
  | c :: cs, skip + 1 => by
    simp only [wsNormGo]
    have := countStar_wsNormGo cs skip
    rw [countStar_cons]
    omega
  | c :: cs, 0 => by
    simp only [wsNormGo]
    split_ifs with hsp
    · rw [countStar_cons, countStar_cons]
      have := countStar_wsNormGo cs (countWhile pyIsSpace cs)
      have hne : ¬(' ' = '*') := by decide
      rw [if_neg hne]
      omega
    · rw [countStar_cons, countStar_cons]
      have := countStar_wsNormGo cs 0
      omega

theorem countStar_stripEnds (l : List Char) : countStar (stripEnds l) ≤ countStar l := by
  unfold stripEnds countStar
  have h1 : ((l.dropWhile pyIsSpace).reverse.dropWhile pyIsSpace).count '*'
      ≤ (l.dropWhile pyIsSpace).reverse.count '*' :=
    (List.dropWhile_suffix pyIsSpace).sublist.count_le '*'
  have h2 : (l.dropWhile pyIsSpace).count '*' ≤ l.count '*' :=
    (List.dropWhile_suffix pyIsSpace).sublist.count_le '*'
  rw [List.count_reverse] at h1
  rw [List.count_reverse]
  omega

/-- Any full run of the pipeline leaves at most one asterisk. -/
theorem countStar_addNaturalPausesL (l : List Char) (e : String) :
    countStar (addNaturalPausesL l e) ≤ 1 := by
  simp only [addNaturalPausesL, stage4]
  have h0 : countStar (removeStars (stage3 e (stage2 (stage1 l)))) ≤ 1 :=
    countStar_removeStarsGo _ 0
  have h1 := countStar_subParenWordGo "pause".toList (brk 300).toList (by decide)
    (removeStars (stage3 e (stage2 (stage1 l)))) 0
  have h2 := countStar_subParenWordGo "sigh".toList (brk 400).toList (by decide)
    (subParenWord "pause".toList (brk 300).toList (removeStars (stage3 e (stage2 (stage1 l))))) 0
  have h3 := countStar_collapseBreaksGo (brk 600).toList (by decide)
    (subParenWord "sigh".toList (brk 400).toList
      (subParenWord "pause".toList (brk 300).toList (removeStars (stage3 e (stage2 (stage1 l)))))) 0
  have h4 := countStar_wsNormGo
    (collapseBreaks (brk 600).toList
      (subParenWord "sigh".toList (brk 400).toList
        (subParenWord "pause".toList (brk 300).toList (removeStars (stage3 e (stage2 (stage1 l))))))) 0
  have h5 := countStar_stripEnds
    (wsNorm (collapseBreaks (brk 600).toList
      (subParenWord "sigh".toList (brk 400).toList
        (subParenWord "pause".toList (brk 300).toList (removeStars (stage3 e (stage2 (stage1 l))))))))
  unfold subParenWord collapseBreaks wsNorm removeStars at *
  omega

/-- The emotion labels supported by the orchestration layer. -/
def supportedEmotions : List String := ["calm", "encouraging", "excited", "sad", "neutral"]

/-- The C5 obligation for one marker and one emotion: the output of the
pipeline on `"hello " ++ marker ++ " world"` has no asterisk at all, no
occurrence of the raw marker text, and no occurrence of the words
"sigh" or "pause" (case-insensitively) — only pause directives (break
tags) remain. -/
def markerOk (m e : String) : Bool :=
  let ol := addNaturalPausesL ("hello " ++ m ++ " world").toList e
  (countStar ol == 0) && !(containsLit false m.toList ol)
    && !(containsLit true "sigh".toList ol) && !(containsLit true "pause".toList ol)

/-- The C5 obligation over the whole substitution table and every
supported emotion. -/
def markerEliminationCheck : Bool :=
  (emotionPatterns.map Prod.fst).all (fun m => supportedEmotions.all (fun e => markerOk m e))

set_option maxHeartbeats 4000000 in
/-- C5: for every stage-direction marker of the substitution table and
every supported emotion, the output of `_add_natural_pauses` on
`"hello marker world"` contains no literal asterisk, no occurrence of
the raw marker text, and no spoken "sigh"/"pause" word; and for ALL
inputs and emotions the output contains at most one asterisk — hence
never a complete asterisk-delimited marker, which would need two. -/
theorem claimC5_marker_elimination :
    markerEliminationCheck = true
    ∧ ∀ (text emotion : String), countStar (addNaturalPauses text emotion).toList ≤ 1 := by
  constructor
  · decide
  · intro text emotion
    exact countStar_addNaturalPausesL text.toList emotion

end OmaniTherapist